import Mathlib

/-!
Verification of the IMSCC-to-Forms converter (`src/Code.js`).

The file shallowly embeds the parts of the converter that the claims are
about: the Drive file tree built by `extractIMSCC`, the manifest locator
`findAndParseManifest`, the three-tier content resolver
`findAndParseQuizContent` / `findFileByPath` / `getAllFilesInFolder`, the
two QTI quiz parsers `parseQtiv1Quiz` / `parseQtiv1Item` /
`parseQtiv2Item`, and the graded-form decision inside `createGoogleForms`.
XML documents are modelled as a rose tree of elements; Apps Script
XmlService accessors (`getChild`, `getChildren`, `getChildText`,
`getAttribute`, `getText`) become total functions on that tree.
-/

set_option autoImplicit false

/-- Splits a character list on a separator character; each segment is
accumulated in reverse in `acc`.  Models JavaScript `String.split(sep)`:
`"" ↦ [""]`, `"a/" ↦ ["a", ""]`. -/
def splitCharAux (sep : Char) : List Char → List Char → List String
  | [], acc => [String.mk acc.reverse]
  | c :: rest, acc =>
    if c == sep then String.mk acc.reverse :: splitCharAux sep rest []
    else splitCharAux sep rest (c :: acc)

/-- JavaScript `String.split` on a one-character separator. -/
def splitChar (sep : Char) (s : String) : List String :=
  splitCharAux sep s.data []

/-- JavaScript `String.endsWith`. -/
def strEndsWith (s suffix : String) : Bool :=
  suffix.data.isSuffixOf s.data

/-- Does `pat` occur as a contiguous sublist?  Helper for `strIncludes`. -/
def listIncludes (pat : List Char) : List Char → Bool
  | [] => pat.isPrefixOf []
  | c :: rest => pat.isPrefixOf (c :: rest) || listIncludes pat rest

/-- JavaScript `String.includes`. -/
def strIncludes (s pat : String) : Bool :=
  listIncludes pat.data s.data

/-- JavaScript truthiness of a nullable string (`null` and `""` are falsy). -/
def optStrTruthy : Option String → Bool
  | none => false
  | some s => !(s == "")

/-- An XML element: tag name, attributes, direct text content, child
elements.  Models the JDOM `Element` objects returned by
`XmlService.parse`. -/
inductive Element : Type where
  | mk (name : String) (attrs : List (String × String)) (text : String)
       (children : List Element)

/-- Tag name (`Element.getName`). -/
def Element.name : Element → String
  | .mk n _ _ _ => n

/-- Attribute list of an element. -/
def Element.attrs : Element → List (String × String)
  | .mk _ a _ _ => a

/-- Direct text content (`Element.getText`). -/
def Element.text : Element → String
  | .mk _ _ t _ => t

/-- Child elements in document order. -/
def Element.children : Element → List Element
  | .mk _ _ _ c => c

/-- `Element.getAttribute(n)` followed by `.getValue()`; `none` models a
`null` attribute object. -/
def Element.getAttribute (e : Element) (n : String) : Option String :=
  (e.attrs.find? (fun a => a.1 == n)).map (fun a => a.2)

/-- `Element.getChild(n)`: the first child element with tag `n`, or `null`. -/
def Element.getChild (e : Element) (n : String) : Option Element :=
  e.children.find? (fun c => c.name == n)

/-- `Element.getChildren(n)`: all children with tag `n`, in document order. -/
def Element.getChildren (e : Element) (n : String) : List Element :=
  e.children.filter (fun c => c.name == n)

/-- `Element.getChildText(n)`: text of the first child named `n`, or `null`. -/
def Element.getChildText (e : Element) (n : String) : Option String :=
  (e.getChild n).map Element.text

/-- One answer choice of a normalized question. -/
structure Choice where
  id : String
  text : String
deriving DecidableEq, Repr

/-- A non-null `correctAnswer` value: the JS code stores either a single
string (multiple choice / modern single value) or an array of strings. -/
inductive CorrectAnswer : Type where
  | single (value : String)
  | multi (values : List String)
deriving DecidableEq, Repr

/-- The normalized question record built by both item normalizers.
`correctAnswer = none` models the JS `null`. -/
structure Question where
  id : String
  title : String
  type : String
  text : String
  choices : List Choice
  correctAnswer : Option CorrectAnswer
  points : Nat
deriving DecidableEq, Repr

/-- `question.type` of a legacy item: the `itemmetadata/qtimetadata`
fields are scanned and every field whose `fieldlabel` is `question_type`
(and whose `fieldentry` is truthy) overwrites the previous value
(`Code.js` lines 657-671). -/
def qtiv1Type (item : Element) : String :=
  match item.getChild "itemmetadata" with
  | none => ""
  | some im =>
    match im.getChild "qtimetadata" with
    | none => ""
    | some qm =>
      (qm.getChildren "qtimetadatafield").foldl (fun acc field =>
        if field.getChildText "fieldlabel" == some "question_type" &&
           optStrTruthy (field.getChildText "fieldentry") then
          (field.getChildText "fieldentry").getD acc
        else acc) ""

/-- `question.text` of a legacy item: first
`presentation/material/mattext` text (`Code.js` lines 673-683). -/
def qtiv1Text (item : Element) : String :=
  match (item.getChild "presentation").bind (fun p =>
      (p.getChild "material").bind (fun m => m.getChild "mattext")) with
  | none => ""
  | some mt => mt.text

/-- Choices of a legacy item, from
`presentation/render_choice/response_label` (`Code.js` lines 685-709);
labels lacking an `ident` attribute, a `material` child or a `mattext`
grandchild are skipped. -/
def qtiv1Choices (item : Element) : List Choice :=
  match item.getChild "presentation" with
  | none => []
  | some pres =>
    match pres.getChild "render_choice" with
    | none => []
    | some rc =>
      (rc.getChildren "response_label").filterMap (fun rl =>
        (rl.getAttribute "ident").bind (fun ident =>
          (rl.getChild "material").bind (fun mat =>
            (mat.getChild "mattext").map (fun mt =>
              { id := ident, text := mt.text }))))

/-- The `varequal` texts the legacy answer loop visits: for each
`respcondition` of the first `resprocessing` child, the first `varequal`
of its first `conditionvar`, in document order (`Code.js` lines 711-721). -/
def qtiv1VarequalValues (item : Element) : List String :=
  match item.getChild "resprocessing" with
  | none => []
  | some rp =>
    (rp.getChildren "respcondition").filterMap (fun rc =>
      (rc.getChild "conditionvar").bind (fun cv =>
        (cv.getChild "varequal").map Element.text))

/-- One step of the legacy correct-answer loop (`Code.js` lines 722-727).
For a multiple-choice item the value overwrites the accumulator; for a
multiple-answers item it is pushed onto the array (the `single` case of
that branch is unreachable because the item's type is fixed before the
loop); any other type leaves the accumulator alone. -/
def qtiv1CorrectStep (qtype : String) (acc : Option CorrectAnswer)
    (v : String) : Option CorrectAnswer :=
  if qtype == "multiple_choice_question" then some (.single v)
  else if qtype == "multiple_answers_question" then
    match acc with
    | some (.multi vs) => some (.multi (vs ++ [v]))
    | _ => some (.multi [v])
  else acc

/-- `parseQtiv1Item` (`Code.js` lines 642-737).  The fresh id that
`Utilities.getUuid()` would generate when the `ident` attribute is absent
is supplied as the `uuid` argument.  The JS `try`/`catch` returning `null`
is kept in the `Option` result; no embedded operation can throw, so the
body always succeeds. -/
def parseQtiv1Item (uuid : String) (item : Element) : Option Question :=
  let qtype := qtiv1Type item
  some {
    id := (item.getAttribute "ident").getD uuid
    title := (item.getAttribute "title").getD ""
    type := qtype
    text := qtiv1Text item
    choices := qtiv1Choices item
    correctAnswer := (qtiv1VarequalValues item).foldl (qtiv1CorrectStep qtype) none
    points := 1 }

/-- A parsed quiz body (the `{title, description, questions}` records the
parsers return). -/
structure QuizContent where
  title : String
  description : String
  questions : List Question
deriving DecidableEq, Repr

/-- Quiz description of a legacy body: every `qtimetadatafield` of the
assessment's `qtimetadata` whose `fieldlabel` is `qmd_description` and
whose `fieldentry` is truthy overwrites `result.description`
(`Code.js` lines 592-603). -/
def qtiv1Description (assessment : Element) : String :=
  match assessment.getChild "qtimetadata" with
  | none => ""
  | some md =>
    (md.getChildren "qtimetadatafield").foldl (fun acc field =>
      if field.getChildText "fieldlabel" == some "qmd_description" &&
         optStrTruthy (field.getChildText "fieldentry") then
        (field.getChildText "fieldentry").getD acc
      else acc) ""

/-- The item elements a legacy assessment contributes: direct `item`
children first, then the `item` children of each `section` child
(`Code.js` lines 607-626). -/
def assessmentItems (assessment : Element) : List Element :=
  assessment.getChildren "item" ++
    (assessment.getChildren "section").flatMap (fun sec => sec.getChildren "item")

/-- `parseQtiv1Quiz` (`Code.js` lines 571-634), parametrized by the item
normalizer so that per-item failure isolation can be stated for an
arbitrary normalizer outcome; items on which `norm` returns `none`
contribute no question (`if (question) result.questions.push(question)`). -/
def parseQtiv1QuizWith (norm : Element → Option Question) (root : Element)
    (quizTitle : String) : QuizContent :=
  match root.getChild "assessment" with
  | none => { title := quizTitle, description := "", questions := [] }
  | some assessment =>
    { title := (assessment.getAttribute "title").getD quizTitle
      description := qtiv1Description assessment
      questions := (assessmentItems assessment).filterMap norm }

/-- `parseQtiv1Quiz` with the real item normalizer. -/
def parseQtiv1Quiz (uuid : String) (root : Element) (quizTitle : String) :
    QuizContent :=
  parseQtiv1QuizWith (parseQtiv1Item uuid) root quizTitle

/-- Question type of a modern item body: inferred solely from which
interaction element is present (`Code.js` lines 803-810); none of the
three recognized interactions leaves the type empty. -/
def qtiv2InferType (body : Element) : String :=
  if (body.getChild "choiceInteraction").isSome then "multiple_choice_question"
  else if (body.getChild "extendedTextInteraction").isSome then "essay_question"
  else if (body.getChild "textEntryInteraction").isSome then "short_answer_question"
  else ""

/-- Question type of a modern item (empty when there is no `itemBody`). -/
def qtiv2ItemType (item : Element) : String :=
  match item.getChild "itemBody" with
  | none => ""
  | some body => qtiv2InferType body

/-- Choices of a modern item, from the `simpleChoice` children of the
body's `choiceInteraction` (`Code.js` lines 818-834); choices lacking an
`identifier` attribute are skipped. -/
def qtiv2Choices (body : Element) : List Choice :=
  match body.getChild "choiceInteraction" with
  | none => []
  | some ci =>
    (ci.getChildren "simpleChoice").filterMap (fun c =>
      (c.getAttribute "identifier").map (fun ident =>
        { id := ident, text := c.text }))

/-- Texts of the `value` children of
`responseDeclaration/correctResponse`, or `[]` when either element is
absent. -/
def qtiv2CorrectValues (item : Element) : List String :=
  match (item.getChild "responseDeclaration").bind (fun rd =>
      rd.getChild "correctResponse") with
  | none => []
  | some cr => (cr.getChildren "value").map Element.text

/-- Correct answer of a modern item (`Code.js` lines 837-849): exactly
one `value` child gives a scalar, more than one gives an array, zero
leaves the answer `null`. -/
def qtiv2CorrectAnswer (item : Element) : Option CorrectAnswer :=
  match (item.getChild "responseDeclaration").bind (fun rd =>
      rd.getChild "correctResponse") with
  | none => none
  | some cr =>
    let values := cr.getChildren "value"
    if values.length == 1 then values.head?.map (fun v => .single v.text)
    else if 1 < values.length then some (.multi (values.map Element.text))
    else none

/-- `parseQtiv2Item` (`Code.js` lines 785-856); as in `parseQtiv1Item`,
the generated id is the `uuid` argument and the unreachable `catch`
branch is the `none` of the `Option` result. -/
def parseQtiv2Item (uuid : String) (item : Element) : Option Question :=
  some {
    id := (item.getAttribute "identifier").getD uuid
    title := (item.getAttribute "title").getD ""
    type := qtiv2ItemType item
    text :=
      match (item.getChild "itemBody").bind (fun b => b.getChild "prompt") with
      | none => ""
      | some p => p.text
    choices :=
      match item.getChild "itemBody" with
      | none => []
      | some body => qtiv2Choices body
    correctAnswer := qtiv2CorrectAnswer item
    points := 1 }

/-- `parseQtiv2Quiz` (`Code.js` lines 746-777): root `title` attribute
overrides the resource title; direct `item` children only. -/
def parseQtiv2Quiz (uuid : String) (root : Element) (quizTitle : String) :
    QuizContent :=
  { title := (root.getAttribute "title").getD quizTitle
    description := ""
    questions := (root.getChildren "item").filterMap (parseQtiv2Item uuid) }

/-- A file inside the extraction workspace: the path of the folder that
directly holds it (segments from the temp root), its name and its text
content.  Google Drive allows several files of the same name in one
folder, so files form a list in creation order. -/
structure DriveFile where
  path : List String
  name : String
  content : String
deriving DecidableEq, Repr

/-- The extraction workspace: the set of created folders (as paths from
the temp root, in creation order) and the created files. -/
structure DriveState where
  folders : List (List String)
  files : List DriveFile
deriving DecidableEq, Repr

/-- One zip entry handed back by `Utilities.unzip`: slash-delimited name
and content. -/
structure ZipEntry where
  name : String
  content : String
deriving DecidableEq, Repr

/-- The get-or-create folder walk of `extractIMSCC` (`Code.js` lines
234-250): starting at folder `cur`, each non-empty segment descends into
the like-named subfolder, creating it only when absent.  Returns the
updated workspace and the folder the walk ends in. -/
def mkDirs : DriveState → List String → List String → DriveState × List String
  | s, cur, [] => (s, cur)
  | s, cur, seg :: rest =>
    if seg == "" then mkDirs s cur rest
    else if cur ++ [seg] ∈ s.folders then mkDirs s (cur ++ [seg]) rest
    else mkDirs { s with folders := s.folders ++ [cur ++ [seg]] } (cur ++ [seg]) rest

/-- Processing of one zip entry by `extractIMSCC` (`Code.js` lines
221-264): names ending in `/` are skipped outright; otherwise the
directory part of the split path is built get-or-create style and the
entry's bytes become a file under the final folder, unless the final
segment is empty. -/
def extractOne (s : DriveState) (e : ZipEntry) : DriveState :=
  if strEndsWith e.name "/" then s
  else
    let parts := splitChar '/' e.name
    let walked := mkDirs s [] parts.dropLast
    let fileName := parts.getLastD ""
    if fileName == "" then walked.1
    else { walked.1 with
           files := walked.1.files ++ [{ path := walked.2, name := fileName,
                                         content := e.content }] }

/-- `extractIMSCC` over the entry list of the archive, starting from the
freshly created (empty) temp folder. -/
def extractIMSCC (entries : List ZipEntry) : DriveState :=
  entries.foldl extractOne { folders := [], files := [] }

/-- Result of `findAndParseManifest`: the two thrown errors and success. -/
inductive ManifestResult : Type where
  | notFound
  | parseError
  | ok (doc : Element)

/-- `findAndParseManifest` (`Code.js` lines 282-300).
`tempFolder.getFilesByName('imsmanifest.xml')` returns the files that are
direct children of the temp folder root, so only files with path `[]` are
consulted; `XmlService.parse` is the oracle argument `parse`, whose
failure is modelled by `none`. -/
def findAndParseManifest (parse : String → Option Element) (s : DriveState) :
    ManifestResult :=
  match s.files.find? (fun f => f.path == ([] : List String) &&
      f.name == "imsmanifest.xml") with
  | none => .notFound
  | some f =>
    match parse f.content with
    | none => .parseError
    | some doc => .ok doc

/-- A quiz resource selected from the manifest (`Code.js` lines 339-368):
identifier, optional `href` (empty string when absent), declared file
hrefs in document order, and title. -/
structure QuizRes where
  identifier : String
  href : String
  files : List String
  title : String
deriving DecidableEq, Repr

/-- The folder walk of `findFileByPath` (`Code.js` lines 503-532):
descends through existing folders only, skipping empty segments, and
returns `none` as soon as a named subfolder does not exist. -/
def navigateFolders (s : DriveState) : List String → List String → Option (List String)
  | cur, [] => some cur
  | cur, seg :: rest =>
    if seg == "" then navigateFolders s cur rest
    else if cur ++ [seg] ∈ s.folders then navigateFolders s (cur ++ [seg]) rest
    else none

/-- `findFileByPath` (`Code.js` lines 503-532): `null` for an empty path,
folder navigation over all but the last segment, then the first file of
that name in the final folder. -/
def findFileByPath (s : DriveState) (path : String) : Option DriveFile :=
  if path == "" then none
  else
    let parts := splitChar '/' path
    match navigateFolders s [] parts.dropLast with
    | none => none
    | some folder =>
      let fileName := parts.getLastD ""
      if fileName == "" then none
      else s.files.find? (fun f => f.path == folder && f.name == fileName)

/-- Direct subfolders of `folder` in creation order. -/
def directSubfolders (s : DriveState) (folder : List String) : List (List String) :=
  s.folders.filter (fun p => p.dropLast == folder &&
    p.length == folder.length + 1)

/-- Recursion body of `getAllFilesInFolder` (`Code.js` lines 477-494):
the files of the current folder, then recursively the files of each
subfolder.  The `fuel` argument only bounds the recursion depth; any fuel
at least the depth of the deepest folder reproduces the unbounded JS
recursion (Drive trees are finite). -/
def subtreeFilesAux (s : DriveState) : Nat → List String → List DriveFile
  | 0, folder => s.files.filter (fun f => f.path == folder)
  | fuel + 1, folder =>
    s.files.filter (fun f => f.path == folder) ++
      (directSubfolders s folder).flatMap (fun p => subtreeFilesAux s fuel p)

/-- `getAllFilesInFolder` from a given folder, with enough fuel for every
folder of the workspace. -/
def getAllFilesInFolder (s : DriveState) (folder : List String) : List DriveFile :=
  subtreeFilesAux s (s.folders.foldr (fun p acc => max p.length acc) 0 + 1) folder

/-- The content heuristic of the tier-3 scan (`Code.js` lines 427-430):
the file text contains `questestinterop`, `assessment`, `qti`, or the
resource's identifier. -/
def quizHeuristicMatch (identifier content : String) : Bool :=
  strIncludes content "questestinterop" || strIncludes content "assessment" ||
    strIncludes content "qti" || strIncludes content identifier

/-- Tier 1 of `findAndParseQuizContent` (`Code.js` lines 401-404):
resolve the resource `href` when it is truthy. -/
def resolveByHref (s : DriveState) (q : QuizRes) : Option DriveFile :=
  if q.href == "" then none else findFileByPath s q.href

/-- Tier 2 (`Code.js` lines 406-417): first declared file href that ends
in `.xml` and resolves to an existing path.  (The JS guard
`quiz.files.length > 0` is subsumed: scanning an empty list finds
nothing.) -/
def resolveByFileList (s : DriveState) (q : QuizRes) : Option DriveFile :=
  q.files.findSome? (fun p =>
    if strEndsWith p ".xml" then findFileByPath s p else none)

/-- Tier 3 (`Code.js` lines 419-437): scan every file of the workspace
and return the first `.xml` file whose content passes the heuristic. -/
def resolveByTreeScan (s : DriveState) (q : QuizRes) : Option DriveFile :=
  (getAllFilesInFolder s []).findSome? (fun f =>
    if strEndsWith f.name ".xml" && quizHeuristicMatch q.identifier f.content
    then some f else none)

/-- The file-finding part of `findAndParseQuizContent` (`Code.js` lines
396-437): the three tiers tried strictly in order, first success wins. -/
def findQuizFile (s : DriveState) (q : QuizRes) : Option DriveFile :=
  match resolveByHref s q with
  | some f => some f
  | none =>
    match resolveByFileList s q with
    | some f => some f
    | none => resolveByTreeScan s q

/-- The per-quiz record assembled inside `createGoogleForms` (`Code.js`
lines 887-931): form title with its fallback, optional description, the
graded-quiz decision of lines 911-919, and the question count. -/
structure FormRecord where
  title : String
  description : Option String
  isQuiz : Bool
  numQuestions : Nat
deriving DecidableEq, Repr

/-- `quiz.content.questions.some(qn => qn.correctAnswer !== null &&
qn.correctAnswer !== undefined)` (`Code.js` line 913). -/
def hasCorrectAnswers (qs : List Question) : Bool :=
  qs.any (fun q => q.correctAnswer.isSome)

/-- The form `createGoogleForms` builds for one quiz with parsed content
(`Code.js` lines 887-931); `setIsQuiz(true)` is called exactly when
`hasCorrectAnswers` holds. -/
def createFormRecord (c : QuizContent) (identifier : String) : FormRecord :=
  { title := if c.title == "" then "Quiz " ++ identifier else c.title
    description := if c.description == "" then none else some c.description
    isQuiz := hasCorrectAnswers c.questions
    numQuestions := c.questions.length }

/-- Spec-side view of the description scan: the `fieldentry` texts of the
`qtimetadatafield` children whose `fieldlabel` is `qmd_description` and
whose `fieldentry` is truthy, in document order.  Stated from the spec's
words so that `qtiv1Description` (the fold from the source) can be
compared against its first/last element. -/
def descriptionFieldValues (assessment : Element) : List String :=
  match assessment.getChild "qtimetadata" with
  | none => []
  | some md =>
    (md.getChildren "qtimetadatafield").filterMap (fun field =>
      if field.getChildText "fieldlabel" == some "qmd_description" &&
         optStrTruthy (field.getChildText "fieldentry") then
        some ((field.getChildText "fieldentry").getD "")
      else none)

/-- Directory segments of a zip entry name: all but the last
slash-separated segment, empty segments dropped (as the extraction loop
does). -/
def entryDirSegs (name : String) : List String :=
  ((splitChar '/' name).dropLast).filter (fun seg => !(seg == ""))

/-- Final slash-separated segment of a zip entry name. -/
def entryFileName (name : String) : String :=
  (splitChar '/' name).getLastD ""

/-- Shorthand for building concrete XML elements in test fixtures. -/
def el (n : String) (attrs : List (String × String)) (t : String)
    (cs : List Element) : Element :=
  .mk n attrs t cs

/-- Fixture for C1: a legacy multiple-choice item with two
`respcondition`/`varequal` values, `A` then `B` in document order. -/
def itemC1 : Element :=
  el "item" [("ident", "i1")] "" [
    el "itemmetadata" [] "" [el "qtimetadata" [] "" [
      el "qtimetadatafield" [] "" [
        el "fieldlabel" [] "question_type" [],
        el "fieldentry" [] "multiple_choice_question" []]]],
    el "resprocessing" [] "" [
      el "respcondition" [] "" [
        el "conditionvar" [] "" [el "varequal" [] "A" []]],
      el "respcondition" [] "" [
        el "conditionvar" [] "" [el "varequal" [] "B" []]]]]

/-- Fixture for C5: a legacy multiple-answers item with `varequal`
values `A` and `C` across two respconditions. -/
def itemC5 : Element :=
  el "item" [("ident", "i5")] "" [
    el "itemmetadata" [] "" [el "qtimetadata" [] "" [
      el "qtimetadatafield" [] "" [
        el "fieldlabel" [] "question_type" [],
        el "fieldentry" [] "multiple_answers_question" []]]],
    el "resprocessing" [] "" [
      el "respcondition" [] "" [
        el "conditionvar" [] "" [el "varequal" [] "A" []]],
      el "respcondition" [] "" [
        el "conditionvar" [] "" [el "varequal" [] "C" []]]]]

/-- Fixture for C4: a legacy quiz body whose assessment carries two
`qmd_description` metadata fields, `d1` first and `d2` second. -/
def rootC4 : Element :=
  el "questestinterop" [] "" [
    el "assessment" [("title", "T")] "" [
      el "qtimetadata" [] "" [
        el "qtimetadatafield" [] "" [
          el "fieldlabel" [] "qmd_description" [],
          el "fieldentry" [] "d1" []],
        el "qtimetadatafield" [] "" [
          el "fieldlabel" [] "qmd_description" [],
          el "fieldentry" [] "d2" []]]]]

/-- Fixture for C8: a modern item body holding no recognized interaction
element. -/
def bodyC8 : Element :=
  el "itemBody" [] "" [el "div" [] "some prose" []]

/-- Fixture for C8: a modern item around `bodyC8`. -/
def itemC8 : Element :=
  el "item" [("identifier", "m1")] "" [bodyC8]

/-- Fixture for C10: a dummy normalized question with a given id. -/
def mkQ (i : String) : Question :=
  { id := i, title := "", type := "", text := "", choices := [],
    correctAnswer := none, points := 1 }

/-- Fixture for C10: an item normalizer that fails exactly on items whose
`ident` attribute is `bad`. -/
def normC10 : Element → Option Question :=
  fun e => if e.getAttribute "ident" == some "bad" then none
           else some (mkQ ((e.getAttribute "ident").getD ""))

/-- Fixture for C10: item that `normC10` normalizes. -/
def itemGood1 : Element := el "item" [("ident", "g1")] "" []

/-- Fixture for C10: item on which `normC10` takes the error path. -/
def itemBad : Element := el "item" [("ident", "bad")] "" []

/-- Fixture for C10: second item that `normC10` normalizes. -/
def itemGood2 : Element := el "item" [("ident", "g2")] "" []

/-- Fixture for C10: assessment with a failing item between two good
ones. -/
def assessC10 : Element :=
  el "assessment" [] "" [itemGood1, itemBad, itemGood2]

/-- Fixture for C10: legacy quiz body around `assessC10`. -/
def rootC10 : Element :=
  el "questestinterop" [] "" [assessC10]

/-- Fixture for C2: a workspace whose only `imsmanifest.xml` sits inside
a subfolder, not at the extraction root. -/
def subManifestState : DriveState :=
  { folders := [["sub"]],
    files := [{ path := ["sub"], name := "imsmanifest.xml",
                content := "<manifest/>" }] }

/-- Fixture for C2: a parse oracle that always succeeds. -/
def trivialParse : String → Option Element :=
  fun _ => some (el "manifest" [] "" [])

/-- Fixture for C2: an empty workspace. -/
def emptyDriveState : DriveState := { folders := [], files := [] }

/-- Fixture for C3: a resource whose `href` does not resolve and whose
declared file list holds a non-XML entry followed by `quiz1.xml`. -/
def quizResC3 : QuizRes :=
  { identifier := "q1", href := "missing/quiz.xml",
    files := ["notes.txt", "quiz1.xml"], title := "T" }

/-- Fixture for C3: a workspace holding `quiz1.xml` at the root together
with a decoy file that the tier-3 scan would pick first. -/
def stateC3 : DriveState :=
  { folders := [],
    files := [
      { path := [], name := "decoy.xml", content := "assessment decoy" },
      { path := [], name := "quiz1.xml", content := "<questestinterop/>" }] }

/-- Fixture for C3: the file tier 2 must return. -/
def quizFileC3 : DriveFile :=
  { path := [], name := "quiz1.xml", content := "<questestinterop/>" }

/-- Fixture for C7: directory-marker entries plus one file `a/b/c.xml`. -/
def entriesC7 : List ZipEntry :=
  [{ name := "a/", content := "" },
   { name := "a/b/", content := "" },
   { name := "a/b/c.xml", content := "payload" }]

/-- Fixture for C9: a question carrying a correct answer. -/
def questionC9 : Question :=
  { id := "q", title := "", type := "multiple_choice_question", text := "t",
    choices := [{ id := "A", text := "a" }],
    correctAnswer := some (.single "A"), points := 1 }

/-- Fixture for C9: a quiz content record with one answered question. -/
def contentC9 : QuizContent :=
  { title := "t", description := "", questions := [questionC9] }

theorem getLast?_cons_isSome {α : Type} : ∀ (a : α) (l : List α),
    ((a :: l).getLast?).isSome = true
  | _, [] => rfl
  | _, b :: t => by rw [List.getLast?_cons_cons]; exact getLast?_cons_isSome b t

theorem getLastD_shift {α : Type} (l : List α) (a b : α) :
    ((a :: l).getLast?).getD b = (l.getLast?).getD a := by
  cases l with
  | nil => simp
  | cons c t =>
    rw [List.getLast?_cons_cons]
    obtain ⟨v, hv⟩ := Option.isSome_iff_exists.mp (getLast?_cons_isSome c t)
    rw [hv]
    rfl

/-- A fold whose step either overwrites the accumulator with a value read
from the element or keeps it ends at the last produced value (or at the
initial value when no element produces one). -/
theorem foldl_overwrite {α β : Type} (step : β → α → β) (g : α → Option β)
    (hstep : ∀ acc x, step acc x = (g x).getD acc) :
    ∀ (l : List α) (init : β),
      l.foldl step init = ((l.filterMap g).getLast?).getD init
  | [], _ => rfl
  | x :: t, init => by
    rw [List.foldl_cons, foldl_overwrite step g hstep t (step init x), hstep]
    cases hg : g x with
    | none => simp [List.filterMap_cons, hg]
    | some v =>
      simp only [List.filterMap_cons, hg, Option.getD_some]
      exact (getLastD_shift (t.filterMap g) v init).symm

/-- The multiple-choice branch of the legacy answer loop keeps only the
last visited value. -/
theorem foldl_mcq : ∀ (l : List String) (acc : Option CorrectAnswer),
    l.foldl (qtiv1CorrectStep "multiple_choice_question") acc
      = match l.getLast? with
        | none => acc
        | some v => some (CorrectAnswer.single v)
  | [], _ => rfl
  | a :: t, acc => by
    rw [List.foldl_cons, foldl_mcq t]
    cases t with
    | nil => simp [qtiv1CorrectStep]
    | cons b t' =>
      rw [List.getLast?_cons_cons]
      obtain ⟨v, hv⟩ := Option.isSome_iff_exists.mp (getLast?_cons_isSome b t')
      rw [hv]

/-- The multiple-answers branch appends every visited value. -/
theorem foldl_ma_append : ∀ (l vs : List String),
    l.foldl (qtiv1CorrectStep "multiple_answers_question")
        (some (CorrectAnswer.multi vs))
      = some (CorrectAnswer.multi (vs ++ l))
  | [], vs => by simp
  | a :: t, vs => by
    have heq : ("multiple_answers_question" == "multiple_answers_question") = true := by
      decide
    have hne : ("multiple_answers_question" == "multiple_choice_question") = false := by
      decide
    rw [List.foldl_cons]
    have hstep : qtiv1CorrectStep "multiple_answers_question"
        (some (CorrectAnswer.multi vs)) a = some (CorrectAnswer.multi (vs ++ [a])) := by
      simp [qtiv1CorrectStep, heq, hne]
    rw [hstep, foldl_ma_append t (vs ++ [a])]
    simp

/-- Starting from `null`, the multiple-answers branch collects exactly
the visited values, in order. -/
theorem foldl_ma (l : List String) :
    l.foldl (qtiv1CorrectStep "multiple_answers_question") none
      = match l with
        | [] => none
        | vs => some (CorrectAnswer.multi vs) := by
  cases l with
  | nil => rfl
  | cons a t =>
    have heq : ("multiple_answers_question" == "multiple_answers_question") = true := by
      decide
    have hne : ("multiple_answers_question" == "multiple_choice_question") = false := by
      decide
    rw [List.foldl_cons]
    have hstep : qtiv1CorrectStep "multiple_answers_question" none a
        = some (CorrectAnswer.multi [a]) := by
      simp [qtiv1CorrectStep, heq, hne]
    rw [hstep, foldl_ma_append t [a]]
    rfl

/-- For any other question type the answer loop leaves the accumulator
untouched. -/
theorem foldl_other (qtype : String)
    (h1 : (qtype == "multiple_choice_question") = false)
    (h2 : (qtype == "multiple_answers_question") = false) :
    ∀ (l : List String) (acc : Option CorrectAnswer),
      l.foldl (qtiv1CorrectStep qtype) acc = acc
  | [], _ => rfl
  | a :: t, acc => by
    rw [List.foldl_cons]
    have hstep : qtiv1CorrectStep qtype acc a = acc := by
      simp [qtiv1CorrectStep, h1, h2]
    rw [hstep, foldl_other qtype h1 h2 t]

/-- `findSome?` ignores a leading block of elements it maps to `none`. -/
theorem findSome?_skip {α β : Type} (g : α → Option β) :
    ∀ (l1 l2 : List α), (∀ x ∈ l1, g x = none) →
      (l1 ++ l2).findSome? g = l2.findSome? g
  | [], _, _ => rfl
  | x :: t, l2, h => by
    rw [List.cons_append, List.findSome?_cons, h x (List.mem_cons_self x t)]
    exact findSome?_skip g t l2 (fun y hy => h y (List.mem_cons_of_mem x hy))

/-- The folder the get-or-create walk ends in is the start folder
extended by the non-empty segments. -/
theorem mkDirs_snd : ∀ (segs : List String) (s : DriveState) (cur : List String),
    (mkDirs s cur segs).2 = cur ++ segs.filter (fun seg => !(seg == ""))
  | [], s, cur => by simp [mkDirs]
  | seg :: rest, s, cur => by
    simp only [mkDirs]
    split_ifs with h1 h2
    · rw [mkDirs_snd rest s cur]
      simp [List.filter_cons, h1]
    · rw [mkDirs_snd rest s (cur ++ [seg])]
      simp [List.filter_cons, h1]
    · rw [mkDirs_snd rest _ (cur ++ [seg])]
      simp [List.filter_cons, h1]

/-- The folder walk never touches the file list. -/
theorem mkDirs_files : ∀ (segs : List String) (s : DriveState) (cur : List String),
    (mkDirs s cur segs).1.files = s.files
  | [], _, _ => rfl
  | seg :: rest, s, cur => by
    simp only [mkDirs]
    split_ifs with h1 h2
    · exact mkDirs_files rest s cur
    · exact mkDirs_files rest s (cur ++ [seg])
    · exact mkDirs_files rest _ (cur ++ [seg])

/-- Appending a fresh element keeps a list duplicate-free. -/
theorem nodup_append_singleton {α : Type} {l : List α} {a : α}
    (h : l.Nodup) (ha : a ∉ l) : (l ++ [a]).Nodup := by
  simp [List.nodup_append, h, ha]

/-- Get-or-create never records the same folder path twice. -/
theorem mkDirs_nodup : ∀ (segs : List String) (s : DriveState) (cur : List String),
    s.folders.Nodup → (mkDirs s cur segs).1.folders.Nodup
  | [], _, _, h => h
  | seg :: rest, s, cur, h => by
    simp only [mkDirs]
    split_ifs with h1 h2
    · exact mkDirs_nodup rest s cur h
    · exact mkDirs_nodup rest s (cur ++ [seg]) h
    · exact mkDirs_nodup rest _ (cur ++ [seg]) (nodup_append_singleton h h2)

/-- Folder creation leaves earlier folders in place. -/
theorem mkDirs_folders_mono : ∀ (segs : List String) (s : DriveState)
    (cur p : List String), p ∈ s.folders → p ∈ (mkDirs s cur segs).1.folders
  | [], _, _, _, h => h
  | seg :: rest, s, cur, p, h => by
    simp only [mkDirs]
    split_ifs with h1 h2
    · exact mkDirs_folders_mono rest s cur p h
    · exact mkDirs_folders_mono rest s (cur ++ [seg]) p h
    · exact mkDirs_folders_mono rest _ (cur ++ [seg]) p (List.mem_append_left _ h)

/-- Processing one more entry never removes an already-created file. -/
theorem extractOne_files_mono (s : DriveState) (e : ZipEntry) (f : DriveFile)
    (h : f ∈ s.files) : f ∈ (extractOne s e).files := by
  unfold extractOne
  dsimp only
  split_ifs with h1 h2
  · exact h
  · rw [mkDirs_files]
    exact h
  · refine List.mem_append_left _ ?_
    rw [mkDirs_files]
    exact h

/-- Folding more entries never removes an already-created file. -/
theorem foldl_files_mono : ∀ (entries : List ZipEntry) (s : DriveState)
    (f : DriveFile), f ∈ s.files → f ∈ (entries.foldl extractOne s).files
  | [], _, _, h => h
  | e :: rest, s, f, h =>
    foldl_files_mono rest (extractOne s e) f (extractOne_files_mono s e f h)

/-- A non-directory entry with a non-empty final segment deposits its
bytes as a file under the folder named by its cleaned directory part. -/
theorem extractOne_adds (s : DriveState) (e : ZipEntry)
    (h1 : strEndsWith e.name "/" = false) (h2 : entryFileName e.name ≠ "") :
    ({ path := entryDirSegs e.name, name := entryFileName e.name,
       content := e.content } : DriveFile) ∈ (extractOne s e).files := by
  unfold extractOne
  rw [if_neg (by simp [h1])]
  simp only
  rw [if_neg (by simp [entryFileName] at h2 ⊢; exact h2)]
  refine List.mem_append_right _ ?_
  rw [mkDirs_snd]
  simp [entryDirSegs, entryFileName]

/-- Membership version of `extractOne_adds` pushed through the fold. -/
theorem extract_mem_aux : ∀ (entries : List ZipEntry) (s : DriveState)
    (e : ZipEntry), e ∈ entries → strEndsWith e.name "/" = false →
    entryFileName e.name ≠ "" →
    ({ path := entryDirSegs e.name, name := entryFileName e.name,
       content := e.content } : DriveFile) ∈ (entries.foldl extractOne s).files
  | e' :: rest, s, e, hmem, h1, h2 => by
    rcases List.mem_cons.mp hmem with heq | htail
    · subst heq
      exact foldl_files_mono rest _ _ (extractOne_adds s e h1 h2)
    · exact extract_mem_aux rest (extractOne s e') e htail h1 h2

/-- Processing one entry preserves duplicate-freeness of the folder set. -/
theorem extractOne_nodup (s : DriveState) (e : ZipEntry)
    (h : s.folders.Nodup) : (extractOne s e).folders.Nodup := by
  unfold extractOne
  dsimp only
  split_ifs with h1 h2
  · exact h
  · exact mkDirs_nodup _ s [] h
  · exact mkDirs_nodup _ s [] h

/-- Folding all entries preserves duplicate-freeness of the folder set. -/
theorem foldl_nodup : ∀ (entries : List ZipEntry) (s : DriveState),
    s.folders.Nodup → (entries.foldl extractOne s).folders.Nodup
  | [], _, h => h
  | e :: rest, s, h => foldl_nodup rest (extractOne s e) (extractOne_nodup s e h)

/-- Claim C1: for a legacy item whose metadata type is
`multiple_choice_question`, each `varequal` value the answer loop visits
overwrites the previous one, so `correctAnswer` is the value visited
last in document order across the `respcondition` elements (absent when
none is visited). -/
theorem c1_mcq_last_varequal_wins (uuid : String) (item : Element)
    (h : qtiv1Type item = "multiple_choice_question") :
    (parseQtiv1Item uuid item).map Question.correctAnswer
      = some (((qtiv1VarequalValues item).getLast?).map CorrectAnswer.single) := by
  simp only [parseQtiv1Item, Option.map_some']
  rw [h, foldl_mcq]
  cases (qtiv1VarequalValues item).getLast? <;> rfl

/-- Witness for C1: on an item with two `varequal` values `A` then `B`
in document order, the correct answer is `B`. -/
theorem c1_mcq_last_varequal_wins_witness :
    qtiv1Type itemC1 = "multiple_choice_question" ∧
    qtiv1VarequalValues itemC1 = ["A", "B"] ∧
    (parseQtiv1Item "u" itemC1).map Question.correctAnswer
      = some (some (CorrectAnswer.single "B")) := by
  refine ⟨by decide, by decide, ?_⟩
  rw [c1_mcq_last_varequal_wins "u" itemC1 (by decide)]
  decide

/-- Claim C5: for a legacy item whose metadata type is
`multiple_answers_question`, the correct answer is exactly the list of
all visited `varequal` values in document order (hence, viewed as a set,
the set of all such values), absent when none is visited; for any type
other than multiple-choice and multiple-answers the correct answer stays
absent. -/
theorem c5_multi_answers_collects_all (uuid : String) (item : Element) :
    (qtiv1Type item = "multiple_answers_question" →
      (parseQtiv1Item uuid item).map Question.correctAnswer
        = some (match qtiv1VarequalValues item with
                | [] => none
                | vs => some (CorrectAnswer.multi vs)))
    ∧ (qtiv1Type item ≠ "multiple_choice_question" →
        qtiv1Type item ≠ "multiple_answers_question" →
        (parseQtiv1Item uuid item).map Question.correctAnswer = some none) := by
  constructor
  · intro h
    simp only [parseQtiv1Item, Option.map_some']
    rw [h, foldl_ma]
  · intro h1 h2
    simp only [parseQtiv1Item, Option.map_some']
    rw [foldl_other (qtiv1Type item) (beq_eq_false_iff_ne.mpr h1)
        (beq_eq_false_iff_ne.mpr h2)]

/-- Witness for C5: `varequal` values `A` and `C` across two
respconditions give the answer list `[A, C]`, i.e. the set `{A, C}`. -/
theorem c5_multi_answers_collects_all_witness :
    qtiv1Type itemC5 = "multiple_answers_question" ∧
    qtiv1VarequalValues itemC5 = ["A", "C"] ∧
    (parseQtiv1Item "u" itemC5).map Question.correctAnswer
      = some (some (CorrectAnswer.multi ["A", "C"])) := by
  refine ⟨by decide, by decide, ?_⟩
  rw [(c5_multi_answers_collects_all "u" itemC5).1 (by decide)]
  decide

/-- Counterexample to claim C4: on a legacy body with two
`qmd_description` fields, `d1` first and `d2` second in document order,
the parser returns `d2`, not the first field's entry `d1`. -/
theorem c4_description_first_refuted :
    (parseQtiv1Quiz "u" rootC4 "fb").description = "d2" ∧
    ((parseQtiv1Quiz "u" rootC4 "fb").description == "d1") = false := by
  decide

/-- Claim C4 (amended): the quiz description is the `fieldentry` text of
the LAST field in document order whose `fieldlabel` equals
`qmd_description` and whose `fieldentry` is present and non-empty (empty
when no such field exists or there is no assessment element). -/
theorem c4_description_last_match (norm : Element → Option Question)
    (root : Element) (title : String) :
    (parseQtiv1QuizWith norm root title).description
      = match root.getChild "assessment" with
        | none => ""
        | some a => ((descriptionFieldValues a).getLast?).getD "" := by
  unfold parseQtiv1QuizWith
  cases hA : root.getChild "assessment" with
  | none => rfl
  | some a =>
    dsimp only
    unfold qtiv1Description descriptionFieldValues
    cases hM : a.getChild "qtimetadata" with
    | none => rfl
    | some md =>
      refine foldl_overwrite _ _ ?_ _ ""
      intro acc field
      by_cases hc : (field.getChildText "fieldlabel" == some "qmd_description" &&
          optStrTruthy (field.getChildText "fieldentry")) = true
      · rw [if_pos hc, if_pos hc, Option.getD_some]
        have ht : optStrTruthy (field.getChildText "fieldentry") = true :=
          (Bool.and_eq_true _ _ ▸ hc).2
        cases hE : field.getChildText "fieldentry" with
        | none => rw [hE] at ht; simp [optStrTruthy] at ht
        | some sv => rfl
      · rw [if_neg hc, if_neg hc]
        rfl

/-- Claim C6: a modern item's correct answer is the single `value` text
when `correctResponse` has exactly one value child, the list of all
their texts when it has more than one (and absent when it has none or is
missing); the question's type is exactly the one inferred from the
interaction element of the body and is never a multi-answer kind, even
when several correct values exist. -/
theorem c6_modern_correct_answer_shape (uuid : String) (item : Element) :
    ((parseQtiv2Item uuid item).map Question.correctAnswer
      = some (match qtiv2CorrectValues item with
              | [] => none
              | [v] => some (CorrectAnswer.single v)
              | vs => some (CorrectAnswer.multi vs)))
    ∧ ((parseQtiv2Item uuid item).map Question.type = some (qtiv2ItemType item))
    ∧ qtiv2ItemType item ∈ ["multiple_choice_question", "essay_question",
        "short_answer_question", ""] := by
  refine ⟨?_, rfl, ?_⟩
  · simp only [parseQtiv2Item, Option.map_some']
    unfold qtiv2CorrectAnswer qtiv2CorrectValues
    cases hRD : (item.getChild "responseDeclaration").bind (fun rd =>
        rd.getChild "correctResponse") with
    | none => rfl
    | some cr =>
      dsimp only
      cases hV : cr.getChildren "value" with
      | nil => simp
      | cons v t =>
        cases t with
        | nil => simp
        | cons w t2 =>
          have hlen : ((v :: w :: t2).length == 1) = false :=
            beq_eq_false_iff_ne.mpr (by simp only [List.length_cons]; omega)
          have hlt : 1 < (v :: w :: t2).length := by
            simp only [List.length_cons]; omega
          simp [hlen, hlt]
  · unfold qtiv2ItemType
    cases item.getChild "itemBody" with
    | none => simp
    | some b =>
      dsimp only
      unfold qtiv2InferType
      split_ifs <;> simp

/-- Claim C8: neither normalizer can fail on an item, whatever its type
metadata or interaction content; a modern item whose body holds none of
the recognized interactions gets the empty type, and the legacy
normalizer passes the metadata type through unchanged. -/
theorem c8_unrecognized_type_no_error (uuid : String) (item : Element) :
    (parseQtiv2Item uuid item).isSome = true
    ∧ (parseQtiv1Item uuid item).isSome = true
    ∧ (parseQtiv1Item uuid item).map Question.type = some (qtiv1Type item)
    ∧ (∀ body, item.getChild "itemBody" = some body →
        body.getChild "choiceInteraction" = none →
        body.getChild "extendedTextInteraction" = none →
        body.getChild "textEntryInteraction" = none →
        (parseQtiv2Item uuid item).map Question.type = some "") := by
  refine ⟨rfl, rfl, rfl, ?_⟩
  intro body hB h1 h2 h3
  simp only [parseQtiv2Item, Option.map_some']
  unfold qtiv2ItemType
  rw [hB]
  dsimp only
  unfold qtiv2InferType
  rw [h1, h2, h3]
  simp

/-- Witness for C8: a modern item whose body holds only a `div` yields
type `""` and no error. -/
theorem c8_unrecognized_type_no_error_witness :
    itemC8.getChild "itemBody" = some bodyC8 ∧
    bodyC8.getChild "choiceInteraction" = none ∧
    bodyC8.getChild "extendedTextInteraction" = none ∧
    bodyC8.getChild "textEntryInteraction" = none ∧
    (parseQtiv2Item "u" itemC8).map Question.type = some "" :=
  ⟨rfl, rfl, rfl, rfl,
    (c8_unrecognized_type_no_error "u" itemC8).2.2.2 bodyC8 rfl rfl rfl rfl⟩

/-- Claim C10: the questions of a legacy quiz are exactly the
item-normalizer successes over the collected items, in collection order;
an item on which the normalizer takes its error path contributes
nothing, and all other items' questions still appear, in order. -/
theorem c10_item_failure_isolation (norm : Element → Option Question)
    (root : Element) (title : String) (a : Element)
    (h : root.getChild "assessment" = some a) :
    ((parseQtiv1QuizWith norm root title).questions
        = (assessmentItems a).filterMap norm)
    ∧ (∀ pre x post, assessmentItems a = pre ++ x :: post → norm x = none →
        (parseQtiv1QuizWith norm root title).questions
          = pre.filterMap norm ++ post.filterMap norm) := by
  have hq : (parseQtiv1QuizWith norm root title).questions
      = (assessmentItems a).filterMap norm := by
    unfold parseQtiv1QuizWith
    rw [h]
  refine ⟨hq, ?_⟩
  intro pre x post hsplit hfail
  rw [hq, hsplit]
  simp [List.filterMap_append, List.filterMap_cons, hfail]

/-- Witness for C10: with a normalizer failing exactly on the middle
item, the two outer items' questions survive in order. -/
theorem c10_item_failure_isolation_witness :
    rootC10.getChild "assessment" = some assessC10 ∧
    assessmentItems assessC10 = [itemGood1] ++ itemBad :: [itemGood2] ∧
    normC10 itemBad = none ∧
    (parseQtiv1QuizWith normC10 rootC10 "t").questions = [mkQ "g1", mkQ "g2"] := by
  refine ⟨rfl, rfl, rfl, ?_⟩
  rw [(c10_item_failure_isolation normC10 rootC10 "t" assessC10 rfl).2
      [itemGood1] itemBad [itemGood2] rfl rfl]
  rfl

/-- Counterexample to claim C2: a workspace whose only `imsmanifest.xml`
sits in a subfolder still produces the manifest-not-found error, because
the locator consults only direct children of the extraction root. -/
theorem c2_manifest_subfolder_missed :
    ({ path := ["sub"], name := "imsmanifest.xml", content := "<manifest/>" }
        : DriveFile) ∈ subManifestState.files ∧
    findAndParseManifest trivialParse subManifestState = .notFound :=
  ⟨List.mem_singleton.mpr rfl, rfl⟩

/-- Claim C2 (amended): the locator searches only the root level of the
extracted tree; it raises the not-found error exactly when no file named
`imsmanifest.xml` exists as a direct child of the extraction root
(regardless of manifests in subfolders). -/
theorem c2_manifest_root_only (parse : String → Option Element) (s : DriveState) :
    findAndParseManifest parse s = .notFound ↔
      ∀ f ∈ s.files, ¬(f.path = ([] : List String) ∧ f.name = "imsmanifest.xml") := by
  unfold findAndParseManifest
  cases hF : s.files.find? (fun f => f.path == ([] : List String) &&
      f.name == "imsmanifest.xml") with
  | none =>
    constructor
    · intro _ f hf hcontra
      have hnp := List.find?_eq_none.mp hF f hf
      simp [hcontra.1, hcontra.2] at hnp
    · intro _
      rfl
  | some f =>
    dsimp only
    have hmem := List.mem_of_find?_eq_some hF
    have hp := List.find?_some hF
    simp only [Bool.and_eq_true, beq_iff_eq] at hp
    constructor
    · intro hEq
      cases hparse : parse f.content
      · rw [hparse] at hEq
        cases hEq
      · rw [hparse] at hEq
        cases hEq
    · intro hAll
      exact absurd ⟨hp.1, hp.2⟩ (hAll f hmem)

/-- Witness for C2 (amended): the empty workspace raises not-found. -/
theorem c2_manifest_root_only_witness :
    findAndParseManifest trivialParse emptyDriveState = .notFound :=
  (c2_manifest_root_only trivialParse emptyDriveState).mpr
    (fun f hf => absurd hf (List.not_mem_nil f))

/-- Claim C3: content resolution tries the `href`, the declared file
list, and the whole-tree scan strictly in that order and returns the
first success; when the `href` fails and some declared href ending in
`.xml` resolves, the first such file is returned and the whole-tree scan
is not consulted. -/
theorem c3_three_tier_priority (s : DriveState) (q : QuizRes) :
    (∀ f, resolveByHref s q = some f → findQuizFile s q = some f)
    ∧ (∀ pre p post f,
        resolveByHref s q = none →
        q.files = pre ++ p :: post →
        (∀ p2 ∈ pre, strEndsWith p2 ".xml" = true → findFileByPath s p2 = none) →
        strEndsWith p ".xml" = true →
        findFileByPath s p = some f →
        findQuizFile s q = some f)
    ∧ (resolveByHref s q = none → resolveByFileList s q = none →
        findQuizFile s q = resolveByTreeScan s q) := by
  refine ⟨?_, ?_, ?_⟩
  · intro f hf
    unfold findQuizFile
    rw [hf]
  · intro pre p post f h1 h2 h3 h4 h5
    have hskip := findSome?_skip
      (fun p2 => if strEndsWith p2 ".xml" then findFileByPath s p2 else none)
      pre (p :: post) (fun x hx => by
        dsimp only
        by_cases hE : strEndsWith x ".xml" = true
        · rw [if_pos hE]
          exact h3 x hx hE
        · rw [if_neg hE])
    have hfl : resolveByFileList s q = some f := by
      unfold resolveByFileList
      rw [h2, hskip, List.findSome?_cons, if_pos h4, h5]
    unfold findQuizFile
    rw [h1, hfl]
  · intro h1 h2
    unfold findQuizFile
    rw [h1, h2]

/-- Witness for C3: the resource's `href` points at a missing folder,
`notes.txt` is skipped for its extension, and `quiz1.xml` is returned
even though the tree also holds a decoy file the tier-3 scan would
match. -/
theorem c3_three_tier_priority_witness :
    resolveByHref stateC3 quizResC3 = none ∧
    quizResC3.files = ["notes.txt"] ++ "quiz1.xml" :: [] ∧
    strEndsWith "quiz1.xml" ".xml" = true ∧
    findFileByPath stateC3 "quiz1.xml" = some quizFileC3 ∧
    findQuizFile stateC3 quizResC3 = some quizFileC3 := by
  refine ⟨by decide, rfl, by decide, by decide, ?_⟩
  exact (c3_three_tier_priority stateC3 quizResC3).2.1 ["notes.txt"] "quiz1.xml" []
    quizFileC3 (by decide) rfl (by decide) (by decide) (by decide)

/-- Claim C7: extraction creates a file for every non-directory entry
with a non-empty final segment, under the folder named by its non-empty
directory segments; an entry whose name ends in the separator creates
nothing; folder creation is get-or-create, so no folder path is ever
recorded twice; and the archive with only directory markers plus
`a/b/c.xml` yields exactly one file under the two folders `a` and
`a/b`. -/
theorem c7_extraction_tree_shape (entries : List ZipEntry) :
    (∀ e ∈ entries, strEndsWith e.name "/" = false →
        entryFileName e.name ≠ "" →
        ({ path := entryDirSegs e.name, name := entryFileName e.name,
           content := e.content } : DriveFile) ∈ (extractIMSCC entries).files)
    ∧ (∀ (s2 : DriveState) (e2 : ZipEntry), strEndsWith e2.name "/" = true →
        extractOne s2 e2 = s2)
    ∧ (extractIMSCC entries).folders.Nodup
    ∧ extractIMSCC entriesC7
        = { folders := [["a"], ["a", "b"]],
            files := [{ path := ["a", "b"], name := "c.xml",
                        content := "payload" }] } := by
  refine ⟨?_, ?_, ?_, by decide⟩
  · intro e hmem h1 h2
    exact extract_mem_aux entries _ e hmem h1 h2
  · intro s2 e2 hdir
    unfold extractOne
    rw [if_pos hdir]
  · exact foldl_nodup entries _ List.nodup_nil

/-- Witness for C7: the file entry of `entriesC7` produces the leaf at
`a/b/c.xml`. -/
theorem c7_extraction_tree_shape_witness :
    ({ name := "a/b/c.xml", content := "payload" } : ZipEntry) ∈ entriesC7 ∧
    strEndsWith "a/b/c.xml" "/" = false ∧
    (entryFileName "a/b/c.xml" == "") = false ∧
    ({ path := ["a", "b"], name := "c.xml", content := "payload" } : DriveFile)
      ∈ (extractIMSCC entriesC7).files := by
  refine ⟨by decide, by decide, by decide, ?_⟩
  exact (c7_extraction_tree_shape entriesC7).1
    { name := "a/b/c.xml", content := "payload" } (by decide) (by decide) (by decide)

/-- Claim C9: the form of a parsed quiz is marked as a graded quiz if
and only if at least one of its questions carries a non-absent
`correctAnswer`. -/
theorem c9_graded_iff_correct_answer (c : QuizContent) (identifier : String) :
    (createFormRecord c identifier).isQuiz = true ↔
      ∃ qn ∈ c.questions, qn.correctAnswer.isSome = true := by
  simp [createFormRecord, hasCorrectAnswers, List.any_eq_true]

/-- Witness for C9: a quiz with one answered question is marked graded. -/
theorem c9_graded_iff_correct_answer_witness :
    (createFormRecord contentC9 "x").isQuiz = true :=
  (c9_graded_iff_correct_answer contentC9 "x").mpr
    ⟨questionC9, by decide, by decide⟩
